import Mathlib

/-
  Verification of the brushable-histogram component (src/Histogram.js and
  src/DensityChart/DensityChart.js).

  Shallow embedding conventions:
  * JavaScript numbers are modelled as rationals (ℚ).  The special values
    `Infinity`, `-Infinity` and `undefined` that flow through
    `calculateWidthsAndDomain` (the constructor passes the sentinel domain
    `{min: Infinity, max: -Infinity}` and `d3.min`/`d3.max` return `undefined`
    on empty data) are modelled by the dedicated type `JVal`, whose comparison
    function follows JavaScript semantics (any comparison involving
    `undefined` is false).
  * A JavaScript object key that may be absent (`undefined`) is modelled with
    `Option`.
  * Data points are opaque; the component touches them only through the two
    injected accessors `xAccessor : α → ℚ` and `yAccessor : α → ℚ`.
  * The handlers are modelled as pure state-transition functions returning
    the d3 calls / upward notifications they would perform.
-/

/-- JavaScript numeric values as they flow through the domain computation:
ordinary (finite) numbers, the two infinities, and `undefined`
(what `d3.min`/`d3.max` return for empty data). -/
inductive JVal where
  | undef : JVal
  | negInf : JVal
  | posInf : JVal
  | num : ℚ → JVal
deriving DecidableEq

/-- JavaScript `<` on `JVal`: every comparison involving `undefined`
(which coerces to `NaN`) is false; the infinities compare as expected. -/
def jlt : JVal → JVal → Bool
  | JVal.undef, _ => false
  | _, JVal.undef => false
  | JVal.negInf, JVal.negInf => false
  | JVal.negInf, _ => true
  | _, JVal.negInf => false
  | JVal.posInf, _ => false
  | JVal.num _, JVal.posInf => true
  | JVal.num a, JVal.num b => decide (a < b)

/-- JavaScript `a > b`, i.e. `b < a`. -/
def jgt (a b : JVal) : Bool := jlt b a

/-- `d3.min(data, xAccessor)` from d3-array: the least accessor value, or
`undefined` for empty data (the accessor is total, so no values are skipped). -/
def d3Min (xAcc : α → ℚ) (data : List α) : JVal :=
  match data.map xAcc with
  | [] => JVal.undef
  | x :: xs => JVal.num (xs.foldl min x)

/-- `d3.max(data, xAccessor)` from d3-array: the greatest accessor value, or
`undefined` for empty data. -/
def d3Max (xAcc : α → ℚ) (data : List α) : JVal :=
  match data.map xAcc with
  | [] => JVal.undef
  | x :: xs => JVal.num (xs.foldl max x)

/-- Modelled from the spec: `isHistogramDataEqual` lives in `src/utils.js`,
which is not among the provided sources.  The spec says incoming data is
"compared via accessor-projected equality, not reference identity", so two
data lists are equal when they have the same length and, pointwise, equal
`xAccessor` and `yAccessor` projections. -/
def isHistogramDataEqual (xAcc yAcc : α → ℚ) (d1 d2 : List α) : Bool :=
  d1.length == d2.length &&
    (List.zip d1 d2).all fun p => xAcc p.1 == xAcc p.2 && yAcc p.1 == yAcc p.2

/-- The brush domain as stored in the component state / passed to
`calculateWidthsAndDomain`: a pair of JavaScript values (the constructor
passes `{min: Infinity, max: -Infinity}`). -/
structure JDomain where
  dmin : JVal
  dmax : JVal
deriving DecidableEq

/-- A brush domain known to hold finite numbers (every domain the component
actually stores is of this form). -/
structure Domain where
  min : ℚ
  max : ℚ
deriving DecidableEq

/-- The relevant configuration surface of the component
(`props`; `width` is `props.size.width`). -/
structure Props (α : Type) where
  data : List α
  width : ℚ
  height : ℚ
  spaceBetweenCharts : ℚ
  renderPlayButton : Bool
  minZoomUnit : ℚ
deriving DecidableEq

/-- `histogramChartDimensions` computed by
`Histogram._calculateChartsPositionsAndSizing`. -/
structure ChartDims where
  width : ℚ
  height : ℚ
  heightForBars : ℚ
deriving DecidableEq

/-- `densityChartDimensions` computed by
`Histogram._calculateChartsPositionsAndSizing`. -/
structure DensityDims where
  width : ℚ
  height : ℚ
deriving DecidableEq

/-- `Histogram._calculateChartsPositionsAndSizing`.  The constants are those
of Histogram.js: `PADDING = 10`, `BUTTON_PADDING = 20`,
`DENSITY_CHART_HEIGHT_PX = 35`, `X_AXIS_HEIGHT = 18`. -/
def calculateChartsPositionsAndSizing (p : Props α) : ChartDims × DensityDims :=
  let playButtonPadding : ℚ :=
    if p.renderPlayButton then (if p.width > 10 + 10 then 20 else 0) else 0
  let histogramHeight := p.height - 35 - p.spaceBetweenCharts
  (⟨p.width - 10, histogramHeight, histogramHeight - 18⟩,
   ⟨p.width - 10 * 4 - playButtonPadding, 35⟩)

/-- The `nextState` object built by `Histogram.calculateWidthsAndDomain`:
the two dimension records are always present, the `data` and `brushDomain`
keys are present only on the branches that set them (`Option`). -/
structure NextState (α : Type) where
  histogramChartDimensions : ChartDims
  densityChartDimensions : DensityDims
  data : Option (List α)
  brushDomain : Option JDomain

/-- `Histogram.calculateWidthsAndDomain` (Histogram.js lines 130-168).
When the data changed, the new extent is computed with `d3.min`/`d3.max`
and the `brushDomain` key is set to exactly `{min, max}` of the new data
whenever `previousBrushDomain.min > min || previousBrushDomain.max < max`. -/
def calculateWidthsAndDomain (xAcc yAcc : α → ℚ) (p : Props α)
    (previousData : List α) (previousBrushDomain : JDomain) : NextState α :=
  let dims := calculateChartsPositionsAndSizing p
  if isHistogramDataEqual xAcc yAcc p.data previousData then
    ⟨dims.1, dims.2, none, none⟩
  else
    let mn := d3Min xAcc p.data
    let mx := d3Max xAcc p.data
    if jgt previousBrushDomain.dmin mn || jlt previousBrushDomain.dmax mx then
      ⟨dims.1, dims.2, some p.data, some ⟨mn, mx⟩⟩
    else
      ⟨dims.1, dims.2, some p.data, none⟩

/-- The effect of a `calculateWidthsAndDomain` pass on the stored brush
domain: `setState` merges the partial `nextState`, so an absent
`brushDomain` key leaves the previous value in place. -/
def nextBrushDomain (xAcc yAcc : α → ℚ) (p : Props α)
    (previousData : List α) (prev : JDomain) : JDomain :=
  ((calculateWidthsAndDomain xAcc yAcc p previousData prev).brushDomain).getD prev

/-- The `state.brushDomain` produced by the constructor (Histogram.js lines
189-196): `calculateWidthsAndDomain(props, [], {max: -Infinity, min: Infinity})`
merged over a base state that has no `brushDomain` key, so the result is
`none` (JavaScript `undefined`) whenever `calculateWidthsAndDomain` does not
set the key. -/
def initialBrushDomain (xAcc yAcc : α → ℚ) (p : Props α) : Option JDomain :=
  (calculateWidthsAndDomain xAcc yAcc p [] ⟨JVal.posInf, JVal.negInf⟩).brushDomain

/-- `Histogram.getDerivedStateFromProps` (lines 170-178): throws
synchronously when `props.height < MIN_TOTAL_HEIGHT` (150), else returns the
`calculateWidthsAndDomain` state update.  (The JavaScript returns `null`
instead of an object without keys, but `nextState` always carries the two
dimension records, so that branch is unreachable.) -/
def getDerivedStateFromProps (xAcc yAcc : α → ℚ) (p : Props α)
    (stateData : List α) (stateBrushDomain : JDomain) :
    Except String (NextState α) :=
  if p.height < 150 then
    Except.error "The minimum height is 150px."
  else
    Except.ok (calculateWidthsAndDomain xAcc yAcc p stateData stateBrushDomain)

/-- `MIN_ZOOM_VALUE` and `MAX_ZOOM_VALUE` as passed to `zoom.scaleExtent` in
`Histogram._createScaleAndZoom` (lines 286-289):
`[1, (brushDomain.max - brushDomain.min) / minZoomUnit]`, with no clamping. -/
def createScaleAndZoomScaleExtent (brushDomain : Domain) (minZoomUnit : ℚ) : ℚ × ℚ :=
  (1, (brushDomain.max - brushDomain.min) / minZoomUnit)

/-- The scale extent the spec claims: `[1, max(1, (max - min)/minZoomUnit)]`
(stated here from the spec's words, for comparison with the code's
`createScaleAndZoomScaleExtent`). -/
def specScaleExtent (brushDomain : Domain) (minZoomUnit : ℚ) : ℚ × ℚ :=
  (1, max 1 ((brushDomain.max - brushDomain.min) / minZoomUnit))

/-- A d3 linear/time scale: domain `[d0, d1]`, range `[r0, r1]`.
`densityChartXScale` is `scaleTime().domain([brushDomain.min,
brushDomain.max]).range([0, densityChartDimensions.width])`. -/
structure LinScale where
  d0 : ℚ
  d1 : ℚ
  r0 : ℚ
  r1 : ℚ
deriving DecidableEq

/-- `scale.invert(p)` of a d3 linear/time scale (d3-scale): the affine map
from range back to domain.  (Division in ℚ; a degenerate range never occurs
on the scales the component builds.) -/
def LinScale.invert (s : LinScale) (p : ℚ) : ℚ :=
  s.d0 + (p - s.r0) * (s.d1 - s.d0) / (s.r1 - s.r0)

/-- The `type` of the low-level source event carried by a d3 event
(`d3.event.sourceEvent.type`): the two tags the handlers test for, or any
other gesture type. -/
inductive SourceType where
  | brush : SourceType
  | zoom : SourceType
  | other : SourceType
deriving DecidableEq

/-- The d3 zoom event as consumed by `Histogram._onResizeZoom`:
`sourceEvent` (absent on purely programmatic transforms) and the transform
`{k, x}`. -/
structure D3ZoomEvent where
  sourceType : Option SourceType
  k : ℚ
  tx : ℚ
deriving DecidableEq

/-- `transform.rescaleX(scale).domain()` from d3-zoom: the scale's range is
pulled back through `transform.invertX(p) = (p - x) / k` and inverted. -/
def rescaleXDomain (k tx : ℚ) (s : LinScale) : ℚ × ℚ :=
  (s.invert ((s.r0 - tx) / k), s.invert ((s.r1 - tx) / k))

/-- `Histogram._onResizeZoom` (lines 242-254): returns the `brushedDomain`
it passes to `_updateBrushedDomainAndReRenderTheHistogramPlot`, or `none`
when the handler returns early because the originating low-level gesture is
a brush event (`d3Event.sourceEvent && d3Event.sourceEvent.type === "brush"`). -/
def onResizeZoom (densityChartXScale : LinScale) (ev : D3ZoomEvent) : Option (ℚ × ℚ) :=
  if ev.sourceType = some SourceType.brush then
    none
  else
    some (rescaleXDomain ev.k ev.tx densityChartXScale)

/-- The d3 brush event as consumed by `DensityChart._onResizeBrush`:
`sourceEvent` and `selection` (`none` models a cleared / non-array
selection). -/
structure BrushEvent where
  sourceType : Option SourceType
  selection : Option (ℚ × ℚ)
deriving DecidableEq

/-- What one `DensityChart._onResizeBrush` call does: the pixel range passed
to `_moveBrush` (if any) and the pixel selection passed upward to
`props.onDomainChanged` (if any). -/
structure BrushResult where
  moved : Option (ℚ × ℚ)
  notified : Option (ℚ × ℚ)
deriving DecidableEq

/-- `DensityChart._onResizeBrush` (DensityChart.js lines 85-102): returns
early when the originating gesture is a zoom event; otherwise uses the
event's selection if it is an array, and else self-corrects to the full
pixel range `densityChartXScale.range()` (moving the brush there), finally
calling `onDomainChanged` with the chosen pixel selection. -/
def onResizeBrush (densityChartXScale : LinScale) (ev : BrushEvent) : BrushResult :=
  if ev.sourceType = some SourceType.zoom then
    ⟨none, none⟩
  else
    match ev.selection with
    | some sel => ⟨none, some sel⟩
    | none =>
        ⟨some (densityChartXScale.r0, densityChartXScale.r1),
         some (densityChartXScale.r0, densityChartXScale.r1)⟩

/-- JavaScript division restricted to finiteness information: dividing a
(finite, nonzero) numerator by `0` yields `Infinity`/`-Infinity` rather than
throwing; we record a finite result as `some` and a non-finite one as
`none`. -/
def jsDiv (a b : ℚ) : Option ℚ :=
  if b = 0 then none else some (a / b)

/-- What `Histogram._onDensityChartDomainChanged` (lines 220-232) computes:
the zoom transform `scale(densityChartDimensions.width /
(brushSelectionMax - brushSelectionMin)).translate(-brushSelection[0], 0)`
applied to the histogram, and the domain-space interval
`brushSelection.map(densityChartXScale.invert)` it then passes to
`_updateBrushedDomainAndReRenderTheHistogramPlot`. -/
structure DomainChangedResult where
  zoomScale : Option ℚ
  zoomTranslateX : ℚ
  brushedDomain : ℚ × ℚ
deriving DecidableEq

/-- `Histogram._onDensityChartDomainChanged`: the scale factor is
`width / (brushSelectionMax - brushSelectionMin)` with no guard against a
zero-width selection. -/
def onDensityChartDomainChanged (densityChartXScale : LinScale)
    (densityChartWidth : ℚ) (brushSelection : ℚ × ℚ) : DomainChangedResult :=
  { zoomScale := jsDiv densityChartWidth (brushSelection.2 - brushSelection.1)
    zoomTranslateX := -brushSelection.1
    brushedDomain :=
      (densityChartXScale.invert brushSelection.1,
       densityChartXScale.invert brushSelection.2) }

/-- A JavaScript `Date` object: its numeric time value (`getTime()`)
together with its object identity (`ref`).  Strict (in)equality between
`Date` objects compares identities, never times; `scaleTime`'s `invert`
(Histogram.js line 225) and `rescaleX(...).domain()` (line 251) allocate a
new `Date` on every call, so every `brushedDomain` reaching
`_updateBrushedDomainAndReRenderTheHistogramPlot` carries fresh
identities. -/
structure JsDate where
  time : ℚ
  ref : ℕ
deriving DecidableEq

/-- JavaScript strict inequality `!==` between two `Date` objects:
reference inequality.  (A stored endpoint that is still a plain number
rather than a `Date` is also `!==` any `Date`; both cases are captured by
distinct `ref`s.) -/
def jsStrictNe (a b : JsDate) : Bool := a.ref != b.ref

/-- The outcome of one `_updateBrushedDomainAndReRenderTheHistogramPlot`
call: the (possibly updated) `state.brushDomain` objects and
`state.showHistogramBarTooltip`, and the argument pair passed to
`props.onIntervalChange` (window bounds in `getTime()` values plus the
`isFullDomain` flag), or `none` when the guard suppressed the update. -/
structure UpdateResult where
  brushDomain : JsDate × JsDate
  showHistogramBarTooltip : Bool
  notification : Option ((ℚ × ℚ) × Bool)
deriving DecidableEq

/-- `Histogram._updateBrushedDomainAndReRenderTheHistogramPlot` (lines
314-335).  The guard `brushedDomain[0] !== state.brushDomain.min &&
brushedDomain[1] !== state.brushDomain.max` compares the endpoint OBJECTS
with strict inequality (reference inequality on `Date`s), not their time
values.  When it passes, the state stores those same objects,
`showHistogramBarTooltip` is cleared, and `onIntervalChange` receives
`[brushedDomain[0].getTime(), brushedDomain[1].getTime()]` together with
the `isFullDomain` flag — which, unlike the guard, DOES compare time
values (`.getTime()`) against `densityChartXScale.domain()`. -/
def updateBrushedDomainAndReRender (densityChartXScale : LinScale)
    (stateBrushDomain : JsDate × JsDate) (stateShowTooltip : Bool)
    (brushedDomain : JsDate × JsDate) : UpdateResult :=
  if jsStrictNe brushedDomain.1 stateBrushDomain.1 &&
      jsStrictNe brushedDomain.2 stateBrushDomain.2 then
    { brushDomain := brushedDomain
      showHistogramBarTooltip := false
      notification :=
        some ((brushedDomain.1.time, brushedDomain.2.time),
          densityChartXScale.d0 == brushedDomain.1.time &&
            densityChartXScale.d1 == brushedDomain.2.time) }
  else
    { brushDomain := stateBrushDomain
      showHistogramBarTooltip := stateShowTooltip
      notification := none }

/-- `bisectRight(tz, x, 0, m)` from d3-array, as used by `histogram` to pick
the bin of a value: on the (sorted) threshold lists produced by
`scale.ticks` the binary search returns the number of thresholds `≤ x`. -/
def bisectRight (tz : List ℚ) (x : ℚ) : ℕ :=
  tz.countP (fun t => decide (t ≤ x))

/-- The threshold trimming done by d3-array's `histogram`:
`while (tz[0] <= x0) tz.shift()` and `while (tz[m - 1] > x1) tz.pop()` —
drop leading thresholds `≤ x0` and trailing thresholds `> x1`. -/
def trimThresholds (x0 x1 : ℚ) (tz : List ℚ) : List ℚ :=
  ((tz.dropWhile (fun t => decide (t ≤ x0))).reverse.dropWhile
    (fun t => decide (x1 < t))).reverse

/-- One bin produced by d3-array's `histogram`: the sub-interval
`[x0, x1]` and the data points assigned to it. -/
structure HistBin (α : Type) where
  x0 : ℚ
  x1 : ℚ
  points : List α
deriving DecidableEq

/-- Bin `i` of d3-array's `histogram` over the already-trimmed thresholds
`tz`: it spans from `tz[i-1]` (or the domain's `x0` for the first bin) to
`tz[i]` (or the domain's `x1` for the last bin), and holds the data points
inside the domain whose value bisects to index `i`. -/
def d3HistogramBin (xAcc : α → ℚ) (x0 x1 : ℚ) (tz : List ℚ) (data : List α)
    (i : ℕ) : HistBin α :=
  { x0 := if i = 0 then x0 else tz.getD (i - 1) 0
    x1 := if i = tz.length then x1 else tz.getD i 0
    points := data.filter fun a =>
      decide (x0 ≤ xAcc a) && decide (xAcc a ≤ x1) && (bisectRight tz (xAcc a) == i) }

/-- d3-array's `histogram` with domain `[x0, x1]` and the given threshold
candidates: the thresholds are trimmed to `(x0, x1]`, producing `m + 1`
bins; a data point with `x0 <= value <= x1` is pushed into bin
`bisect(tz, value)` and values outside the domain are ignored. -/
def d3Histogram (xAcc : α → ℚ) (x0 x1 : ℚ) (thresholds : List ℚ)
    (data : List α) : List (HistBin α) :=
  let tz := trimThresholds x0 x1 thresholds
  (List.range (tz.length + 1)).map (d3HistogramBin xAcc x0 x1 tz data)

/-- One element of `state.timeHistogramBars`: a histogram bin together with
its accumulated `yValue`. -/
structure HistBar (α : Type) extends HistBin α where
  yValue : ℚ
deriving DecidableEq

/-- The per-bin step of `Histogram._updateHistogramChartScales`:
`yValue = bar.reduce((sum, curr) => sum + yAccessor(curr), 0)`. -/
def mkHistBar (yAcc : α → ℚ) (b : HistBin α) : HistBar α :=
  { toHistBin := b
    yValue := b.points.foldl (fun sum curr => sum + yAcc curr) 0 }

/-- The bucket computation of `Histogram._updateHistogramChartScales` (lines
343-378).  `histogramChartXScale` has domain `[brushDomain.min,
brushDomain.max]` widened by `.nice(defaultBarCount)`; the niced domain and
the tick thresholds it yields are taken as parameters (d3-scale guarantees
that `nice` only extends the domain and that `ticks` is sorted). -/
def updateHistogramChartBars (xAcc yAcc : α → ℚ) (nicedDomain : ℚ × ℚ)
    (ticks : List ℚ) (data : List α) : List (HistBar α) :=
  (d3Histogram xAcc nicedDomain.1 nicedDomain.2 ticks data).map (mkHistBar yAcc)

/-
  Helper lemmas.
-/

theorem jlt_undef_left (v : JVal) : jlt JVal.undef v = false := by
  cases v <;> rfl

theorem jlt_undef_right (v : JVal) : jlt v JVal.undef = false := by
  cases v <;> rfl

theorem trimThresholds_sublist (x0 x1 : ℚ) (tz : List ℚ) :
    (trimThresholds x0 x1 tz).Sublist tz := by
  unfold trimThresholds
  have h1 : (tz.dropWhile (fun t => decide (t ≤ x0))).Sublist tz :=
    List.dropWhile_sublist _
  have h2 : ((tz.dropWhile (fun t => decide (t ≤ x0))).reverse.dropWhile
      (fun t => decide (x1 < t))).Sublist
      (tz.dropWhile (fun t => decide (t ≤ x0))).reverse :=
    List.dropWhile_sublist _
  have h3 := h2.reverse
  rw [List.reverse_reverse] at h3
  exact h3.trans h1

theorem trimThresholds_sorted (x0 x1 : ℚ) (tz : List ℚ)
    (h : tz.Sorted (· ≤ ·)) : (trimThresholds x0 x1 tz).Sorted (· ≤ ·) :=
  List.Pairwise.sublist (trimThresholds_sublist x0 x1 tz) h

theorem sorted_getD_le_of_lt_countP (x : ℚ) :
    ∀ (l : List ℚ), l.Sorted (· ≤ ·) →
      ∀ j, j < l.countP (fun t => decide (t ≤ x)) → l.getD j 0 ≤ x := by
  intro l
  induction l with
  | nil => intro _ j hj; simp [List.countP_nil] at hj
  | cons a t ih =>
    intro hs j hj
    rw [List.sorted_cons] at hs
    by_cases ha : a ≤ x
    · cases j with
      | zero => simpa [List.getD]
      | succ j' =>
        rw [List.countP_cons] at hj
        simp [ha] at hj
        exact ih hs.2 j' (by omega)
    · exfalso
      have hz : t.countP (fun t => decide (t ≤ x)) = 0 := by
        rw [List.countP_eq_zero]
        intro b hb
        simp only [decide_eq_true_eq]
        intro hbx
        exact ha (le_trans (hs.1 b hb) hbx)
      rw [List.countP_cons] at hj
      simp [ha, hz] at hj

theorem sorted_lt_getD_of_countP_le (x : ℚ) :
    ∀ (l : List ℚ), l.Sorted (· ≤ ·) →
      ∀ j, l.countP (fun t => decide (t ≤ x)) ≤ j → j < l.length → x < l.getD j 0 := by
  intro l
  induction l with
  | nil => intro _ j _ hj; simp at hj
  | cons a t ih =>
    intro hs j hc hj
    rw [List.sorted_cons] at hs
    by_cases ha : a ≤ x
    · rw [List.countP_cons] at hc
      simp [ha] at hc
      cases j with
      | zero => omega
      | succ j' =>
        simp only [List.getD, List.getElem?_cons_succ]
        exact ih hs.2 j' (by omega) (by simpa using hj)
    · push_neg at ha
      cases j with
      | zero => simpa [List.getD]
      | succ j' =>
        have hmem : t.getD j' 0 ∈ t := by
          have hlen : j' < t.length := by simpa using hj
          rw [List.getD_eq_getElem t 0 hlen]
          exact List.getElem_mem hlen
        calc x < a := ha
          _ ≤ t.getD j' 0 := hs.1 _ hmem

theorem countP_range_eq_one (n k : ℕ) (h : k < n) :
    (List.range n).countP (fun i => k == i) = 1 := by
  induction n with
  | zero => omega
  | succ n ihn =>
    rw [List.range_succ, List.countP_append]
    by_cases hk : k < n
    · rw [ihn hk]
      have h1 : (List.countP (fun i => k == i) [n]) = 0 := by
        rw [List.countP_cons, List.countP_nil]
        have hne : (k == n) = false := by simp; omega
        simp [hne]
      omega
    · have hkn : k = n := by omega
      have h0 : (List.range n).countP (fun i => k == i) = 0 := by
        rw [List.countP_eq_zero]
        intro a ha
        rw [List.mem_range] at ha
        simp only [beq_iff_eq]
        omega
      rw [h0, List.countP_cons, List.countP_nil, hkn]
      simp

theorem foldl_add_eq_sum (f : α → ℚ) :
    ∀ (l : List α) (init : ℚ),
      l.foldl (fun s c => s + f c) init = init + (l.map f).sum := by
  intro l
  induction l with
  | nil => intro init; simp
  | cons a t ih =>
    intro init
    simp only [List.foldl_cons, List.map_cons, List.sum_cons]
    rw [ih]
    ring

/-
  Claim theorems.
-/

/-- C1 (counterexample): the domain does NOT only widen.  With previous
domain `{min: 0, max: 10}` and a changed data set of extent `{5, 20}`, the
update condition fires (`10 < 20`) and the stored domain becomes exactly
`{5, 20}`: its `min` rose from `0` to `5`, so `Domain.min` is not
non-increasing across updates. -/
theorem C1_domain_min_can_increase :
    nextBrushDomain Prod.fst Prod.snd
      (⟨[(5, 1), (20, 1)], 500, 150, 10, true, 1000⟩ : Props (ℚ × ℚ))
      [(0, 1), (10, 1)] ⟨JVal.num 0, JVal.num 10⟩ = ⟨JVal.num 5, JVal.num 20⟩ ∧
    ¬ ((5 : ℚ) ≤ 0) := by
  decide

/-- C1 (amended): across data updates the brush domain is not merged but
replaced.  It is left unchanged when the data is unchanged (accessor-wise)
or empty; when the data changed and its new extent exceeds the previous
domain on at least one side (`previous.min > min || previous.max < max`) the
domain becomes exactly the new data's extent `{d3.min, d3.max}` — which can
raise `Domain.min` or lower `Domain.max` on the side that did not grow —
and otherwise it is unchanged. -/
theorem C1_domain_update_replaces_extent (xAcc yAcc : α → ℚ) (p : Props α)
    (prevData : List α) (prev : JDomain) :
    (isHistogramDataEqual xAcc yAcc p.data prevData = true →
      nextBrushDomain xAcc yAcc p prevData prev = prev) ∧
    (p.data = [] → nextBrushDomain xAcc yAcc p prevData prev = prev) ∧
    (isHistogramDataEqual xAcc yAcc p.data prevData = false →
      (jgt prev.dmin (d3Min xAcc p.data) || jlt prev.dmax (d3Max xAcc p.data)) = true →
      nextBrushDomain xAcc yAcc p prevData prev = ⟨d3Min xAcc p.data, d3Max xAcc p.data⟩) ∧
    (isHistogramDataEqual xAcc yAcc p.data prevData = false →
      (jgt prev.dmin (d3Min xAcc p.data) || jlt prev.dmax (d3Max xAcc p.data)) = false →
      nextBrushDomain xAcc yAcc p prevData prev = prev) := by
  refine ⟨?_, ?_, ?_, ?_⟩
  · intro h
    simp [nextBrushDomain, calculateWidthsAndDomain, h]
  · intro h
    by_cases he : isHistogramDataEqual xAcc yAcc p.data prevData
    · simp [nextBrushDomain, calculateWidthsAndDomain, he]
    · have hmn : d3Min xAcc p.data = JVal.undef := by simp [d3Min, h]
      have hmx : d3Max xAcc p.data = JVal.undef := by simp [d3Max, h]
      simp [nextBrushDomain, calculateWidthsAndDomain, he, hmn, hmx, jgt,
        jlt_undef_left, jlt_undef_right]
  · intro h hc
    simp [nextBrushDomain, calculateWidthsAndDomain, h, hc]
  · intro h hc
    simp [nextBrushDomain, calculateWidthsAndDomain, h, hc]

/-- C1 (witness): the amended characterization applied at the
counterexample input: the changed data `[(5,1),(20,1)]` with previous
domain `{0, 10}` yields exactly the new extent. -/
theorem C1_domain_update_replaces_extent_witness :
    nextBrushDomain Prod.fst Prod.snd
      (⟨[(5, 1), (20, 1)], 500, 150, 10, true, 1000⟩ : Props (ℚ × ℚ))
      [(0, 1), (10, 1)] ⟨JVal.num 0, JVal.num 10⟩ =
      ⟨d3Min Prod.fst [((5 : ℚ), (1 : ℚ)), (20, 1)],
       d3Max Prod.fst [((5 : ℚ), (1 : ℚ)), (20, 1)]⟩ :=
  (C1_domain_update_replaces_extent Prod.fst Prod.snd _ _ _).2.2.1
    (by decide) (by decide)

/-- C2: the feedback-loop suppression holds in both directions.
`_onResizeZoom` returns early (no zoom-side re-application) on any event
whose originating low-level gesture is of type `"brush"`, and
`_onResizeBrush` returns early (no brush move, no upward notification) on
any event whose originating low-level gesture is of type `"zoom"`. -/
theorem C2_gesture_source_suppression (s : LinScale) (evz : D3ZoomEvent)
    (evb : BrushEvent) :
    (evz.sourceType = some SourceType.brush → onResizeZoom s evz = none) ∧
    (evb.sourceType = some SourceType.zoom → onResizeBrush s evb = ⟨none, none⟩) := by
  constructor
  · intro h; simp [onResizeZoom, h]
  · intro h; simp [onResizeBrush, h]

/-- C2 (witness): the suppression at concrete events of each kind. -/
theorem C2_gesture_source_suppression_witness :
    onResizeZoom ⟨0, 10, 0, 100⟩ ⟨some SourceType.brush, 2, 5⟩ = none ∧
    onResizeBrush ⟨0, 10, 0, 100⟩ ⟨some SourceType.zoom, some (1, 2)⟩ = ⟨none, none⟩ :=
  ⟨(C2_gesture_source_suppression ⟨0, 10, 0, 100⟩ ⟨some SourceType.brush, 2, 5⟩
      ⟨some SourceType.zoom, some (1, 2)⟩).1 rfl,
   (C2_gesture_source_suppression ⟨0, 10, 0, 100⟩ ⟨some SourceType.brush, 2, 5⟩
      ⟨some SourceType.zoom, some (1, 2)⟩).2 rfl⟩

/-- C3 (counterexample): the zoom scale extent is NOT
`[1, max(1, (max - min)/minZoomUnit)]`.  For the degenerate single-point
domain `{5, 5}` with `minZoomUnit = 1000` the code passes `[1, 0]` to
`scaleExtent`, while the claimed formula gives `[1, 1]`. -/
theorem C3_scale_extent_counterexample :
    createScaleAndZoomScaleExtent ⟨5, 5⟩ 1000 = (1, 0) ∧
    createScaleAndZoomScaleExtent ⟨5, 5⟩ 1000 ≠ specScaleExtent ⟨5, 5⟩ 1000 := by
  norm_num [createScaleAndZoomScaleExtent, specScaleExtent, Prod.ext_iff]

/-- C3 (amended): `_createScaleAndZoom` passes
`[1, (Domain.max - Domain.min)/minZoomUnit]` with no lower clamp: a
degenerate domain (`max = min`) yields `[1, 0]` (d3-zoom stores it without
throwing), a domain extent smaller than `minZoomUnit` yields an upper bound
strictly below `1`, and for `data = []` the zoom is never constructed
because the constructor leaves `state.brushDomain` unset (see C9). -/
theorem C3_scale_extent_unclamped (bd : Domain) (u : ℚ) :
    (bd.max = bd.min → createScaleAndZoomScaleExtent bd u = (1, 0)) ∧
    (0 < u → bd.max - bd.min < u → (createScaleAndZoomScaleExtent bd u).2 < 1) ∧
    initialBrushDomain Prod.fst Prod.snd
      (⟨[], 500, 150, 10, true, 1000⟩ : Props (ℚ × ℚ)) = none := by
  refine ⟨?_, ?_, by decide⟩
  · intro h; simp [createScaleAndZoomScaleExtent, h]
  · intro hu hlt
    simpa [createScaleAndZoomScaleExtent] using (div_lt_one hu).mpr hlt

/-- C3 (witness): the degenerate domain `{7, 7}` yields extent `(1, 0)` and
the narrow domain `{0, 500}` with `minZoomUnit = 1000` an upper bound
below `1`. -/
theorem C3_scale_extent_unclamped_witness :
    createScaleAndZoomScaleExtent ⟨7, 7⟩ 1000 = (1, 0) ∧
    (createScaleAndZoomScaleExtent ⟨0, 500⟩ 1000).2 < 1 :=
  ⟨(C3_scale_extent_unclamped ⟨7, 7⟩ 1000).1 rfl,
   (C3_scale_extent_unclamped ⟨0, 500⟩ 1000).2.1 (by norm_num) (by norm_num)⟩

/-- C4: the suppression does not happen in the program.  The guard's `!==`
operands are `Date` objects, and `brushedDomain` is freshly allocated on
every call (`densityChartXScale.invert`, `rescaleX(...).domain()`), so the
reference comparison always passes: with stored domain objects holding the
times `(0, 10)`, a call with a fresh `Date` pair for the identical window
`(0, 10)` notifies, and an immediately repeated call with another fresh
pair for the same window notifies AGAIN — `onIntervalChange` fires twice
for an identical window, refuting "at most once" (and "only when the
bounds differ"), although the function's own doc comment promises to check
"if brushed domain changed".  (`ref`s 0-5 are the distinct object
identities; the flag is `true` because `(0, 10)` is the full domain.) -/
theorem C4_identical_window_notifies_twice :
    (updateBrushedDomainAndReRender ⟨0, 10, 0, 100⟩ (⟨0, 0⟩, ⟨10, 1⟩) true
      (⟨0, 2⟩, ⟨10, 3⟩)).notification = some ((0, 10), true) ∧
    (updateBrushedDomainAndReRender ⟨0, 10, 0, 100⟩
      (updateBrushedDomainAndReRender ⟨0, 10, 0, 100⟩ (⟨0, 0⟩, ⟨10, 1⟩) true
        (⟨0, 2⟩, ⟨10, 3⟩)).brushDomain
      (updateBrushedDomainAndReRender ⟨0, 10, 0, 100⟩ (⟨0, 0⟩, ⟨10, 1⟩) true
        (⟨0, 2⟩, ⟨10, 3⟩)).showHistogramBarTooltip
      (⟨0, 4⟩, ⟨10, 5⟩)).notification = some ((0, 10), true) := by
  decide

/-- C5: whenever the visible window changes, `onIntervalChange` is invoked
with the new window's numeric bounds and a flag that is true exactly when
the new window equals the full domain.  In fact, since both producers of
`brushedDomain` allocate fresh `Date` objects — identities distinct from
anything the state holds (hypotheses `h1`, `h2`) — the strict-inequality
guard always passes and the callback fires on EVERY call, in particular
whenever the window differs from the previous one in at least one
endpoint; its arguments are the `getTime()` bounds and the `isFullDomain`
flag, true exactly when those bounds equal `densityChartXScale.domain()`. -/
theorem C5_interval_change_callback (s : LinScale) (st : JsDate × JsDate)
    (tt : Bool) (bd : JsDate × JsDate)
    (h1 : bd.1.ref ≠ st.1.ref) (h2 : bd.2.ref ≠ st.2.ref) :
    (updateBrushedDomainAndReRender s st tt bd).notification =
      some ((bd.1.time, bd.2.time),
        s.d0 == bd.1.time && s.d1 == bd.2.time) ∧
    ((s.d0 == bd.1.time && s.d1 == bd.2.time) = true ↔
      (bd.1.time, bd.2.time) = (s.d0, s.d1)) := by
  constructor
  · simp [updateBrushedDomainAndReRender, jsStrictNe, h1, h2]
  · simp only [Bool.and_eq_true, beq_iff_eq, Prod.ext_iff]
    constructor
    · rintro ⟨hl, hr⟩; exact ⟨hl.symm, hr.symm⟩
    · rintro ⟨hl, hr⟩; exact ⟨hl.symm, hr.symm⟩

/-- C5 (witness): the fresh `Date` pair for the window `(0, 20)` — which
differs from the stored times `(0, 10)` in one endpoint — is notified with
bounds `(0, 20)` and flag `false` (not the full domain `[0, 10]`). -/
theorem C5_interval_change_callback_witness :
    (updateBrushedDomainAndReRender ⟨0, 10, 0, 100⟩ (⟨0, 0⟩, ⟨10, 1⟩) false
      (⟨0, 2⟩, ⟨20, 3⟩)).notification = some ((0, 20), false) := by
  have h := (C5_interval_change_callback ⟨0, 10, 0, 100⟩ (⟨0, 0⟩, ⟨10, 1⟩) false
    (⟨0, 2⟩, ⟨20, 3⟩) (by decide) (by decide)).1
  rw [h]
  decide

/-- C6: configuration validation is fail-fast.  `getDerivedStateFromProps`
throws the synchronous error "The minimum height is 150px." (naming the
enforced minimum) exactly when `props.height < 150`, and for any height at
or above 150 it returns the computed state update without failure. -/
theorem C6_min_height_fail_fast (xAcc yAcc : α → ℚ) (p : Props α)
    (d : List α) (bd : JDomain) :
    (p.height < 150 → getDerivedStateFromProps xAcc yAcc p d bd =
      Except.error "The minimum height is 150px.") ∧
    (150 ≤ p.height → getDerivedStateFromProps xAcc yAcc p d bd =
      Except.ok (calculateWidthsAndDomain xAcc yAcc p d bd)) := by
  constructor
  · intro h; simp [getDerivedStateFromProps, h]
  · intro h; simp [getDerivedStateFromProps, not_lt.mpr h]

/-- C6 (witness): height 100 fails with the message naming 150px; height
200 succeeds. -/
theorem C6_min_height_fail_fast_witness :
    getDerivedStateFromProps Prod.fst Prod.snd
      (⟨[], 500, 100, 10, true, 1000⟩ : Props (ℚ × ℚ)) [] ⟨JVal.num 0, JVal.num 1⟩ =
      Except.error "The minimum height is 150px." ∧
    getDerivedStateFromProps Prod.fst Prod.snd
      (⟨[], 500, 200, 10, true, 1000⟩ : Props (ℚ × ℚ)) [] ⟨JVal.num 0, JVal.num 1⟩ =
      Except.ok (calculateWidthsAndDomain Prod.fst Prod.snd
        ⟨[], 500, 200, 10, true, 1000⟩ [] ⟨JVal.num 0, JVal.num 1⟩) :=
  ⟨(C6_min_height_fail_fast Prod.fst Prod.snd _ _ _).1 (by norm_num),
   (C6_min_height_fail_fast Prod.fst Prod.snd _ _ _).2 (by norm_num)⟩

/-- C7: on a brush event that is not zoom-originated, an absent selection
is treated as selecting the full extent — the brush is moved to the full
pixel range `densityChartXScale.range()` and that full range is propagated
— while a present selection is propagated unchanged (and the brush is not
moved). -/
theorem C7_cleared_brush_selects_full_extent (s : LinScale) (ev : BrushEvent)
    (h : ev.sourceType ≠ some SourceType.zoom) :
    (ev.selection = none →
      onResizeBrush s ev = ⟨some (s.r0, s.r1), some (s.r0, s.r1)⟩) ∧
    (∀ sel, ev.selection = some sel → onResizeBrush s ev = ⟨none, some sel⟩) := by
  constructor
  · intro hsel; simp [onResizeBrush, h, hsel]
  · intro sel hsel; simp [onResizeBrush, h, hsel]

/-- C7 (witness): with pixel range `[0, 100]`, a cleared selection moves
and propagates `(0, 100)`; the selection `(3, 7)` is propagated as is. -/
theorem C7_cleared_brush_selects_full_extent_witness :
    onResizeBrush ⟨0, 10, 0, 100⟩ ⟨none, none⟩ = ⟨some (0, 100), some (0, 100)⟩ ∧
    onResizeBrush ⟨0, 10, 0, 100⟩ ⟨none, some (3, 7)⟩ = ⟨none, some (3, 7)⟩ :=
  ⟨(C7_cleared_brush_selects_full_extent ⟨0, 10, 0, 100⟩ ⟨none, none⟩ (by decide)).1 rfl,
   (C7_cleared_brush_selects_full_extent ⟨0, 10, 0, 100⟩ ⟨none, some (3, 7)⟩ (by decide)).2
      (3, 7) rfl⟩

/-- C8: bucket correctness of `_updateHistogramChartScales`.  For any data
set, visible window `[wmin, wmax]`, and bucket layout produced from it (the
niced scale domain `[nd0, nd1]` contains the window and the tick thresholds
are sorted, as d3-scale guarantees): every bar's `yValue` is the sum of the
`yAccessor` over its points; every data point inside the visible window is
counted in exactly one bucket; consecutive buckets share their common
endpoint (contiguous, non-overlapping); and every coordinate of the visible
window lies inside some bucket's interval (the buckets cover the window). -/
theorem C8_bucket_partition_and_yvalue {α : Type} [DecidableEq α]
    (xAcc yAcc : α → ℚ) (data : List α) (wmin wmax nd0 nd1 : ℚ)
    (ticks : List ℚ) (bars : List (HistBar α))
    (hbars : bars = updateHistogramChartBars xAcc yAcc (nd0, nd1) ticks data)
    (hn0 : nd0 ≤ wmin) (hn1 : wmax ≤ nd1)
    (hsorted : ticks.Sorted (· ≤ ·)) :
    (∀ b ∈ bars, b.yValue = (b.points.map yAcc).sum) ∧
    (∀ a ∈ data, wmin ≤ xAcc a → xAcc a ≤ wmax →
        bars.countP (fun b => decide (a ∈ b.points)) = 1) ∧
    (∀ i, ∀ h : i + 1 < bars.length,
        (bars.get ⟨i, Nat.lt_of_succ_lt h⟩).x1 = (bars.get ⟨i + 1, h⟩).x0) ∧
    (∀ x, wmin ≤ x → x ≤ wmax → ∃ b ∈ bars, b.x0 ≤ x ∧ x ≤ b.x1) := by
  subst hbars
  set tz := trimThresholds nd0 nd1 ticks with htzdef
  have htz : tz.Sorted (· ≤ ·) := trimThresholds_sorted nd0 nd1 ticks hsorted
  have hlen : (updateHistogramChartBars xAcc yAcc (nd0, nd1) ticks data).length
      = tz.length + 1 := by
    simp [updateHistogramChartBars, d3Histogram, htzdef]
  have hget : ∀ i, ∀ h : i < tz.length + 1,
      (updateHistogramChartBars xAcc yAcc (nd0, nd1) ticks data).get
        ⟨i, by rw [hlen]; exact h⟩
      = mkHistBar yAcc (d3HistogramBin xAcc nd0 nd1 tz data i) := by
    intro i h
    simp [updateHistogramChartBars, d3Histogram, List.get_eq_getElem,
      List.getElem_map, List.getElem_range, htzdef]
  refine ⟨?_, ?_, ?_, ?_⟩
  · intro b hb
    simp only [updateHistogramChartBars, List.mem_map] at hb
    obtain ⟨bin, _, rfl⟩ := hb
    show bin.points.foldl (fun sum curr => sum + yAcc curr) 0 = (bin.points.map yAcc).sum
    rw [foldl_add_eq_sum, zero_add]
  · intro a ha hax0 hax1
    have hx0 : nd0 ≤ xAcc a := le_trans hn0 hax0
    have hx1 : xAcc a ≤ nd1 := le_trans hax1 hn1
    simp only [updateHistogramChartBars, d3Histogram, List.countP_map]
    have hcong : List.countP
        (((fun b => decide (a ∈ b.points)) ∘ mkHistBar yAcc) ∘ d3HistogramBin xAcc nd0 nd1 tz data)
        (List.range (tz.length + 1))
        = List.countP (fun i => bisectRight tz (xAcc a) == i) (List.range (tz.length + 1)) := by
      apply List.countP_congr
      intro i _
      simp only [Function.comp_apply, mkHistBar, d3HistogramBin, decide_eq_true_eq,
        List.mem_filter, Bool.and_eq_true, beq_iff_eq]
      constructor
      · rintro ⟨_, ⟨_, _⟩, hb⟩
        exact hb
      · intro hb
        exact ⟨ha, ⟨by simpa using hx0, by simpa using hx1⟩, hb⟩
    rw [← htzdef, hcong]
    exact countP_range_eq_one _ _
      (Nat.lt_succ_of_le (List.countP_le_length _))
  · intro i h
    rw [hlen] at h
    rw [hget i (Nat.lt_of_succ_lt h), hget (i + 1) h]
    have hi : i ≠ tz.length := by omega
    simp only [mkHistBar, d3HistogramBin]
    simp [hi]
  · intro x hx0 hx1
    have hxn0 : nd0 ≤ x := le_trans hn0 hx0
    have hxn1 : x ≤ nd1 := le_trans hx1 hn1
    have hk : bisectRight tz x ≤ tz.length := List.countP_le_length _
    refine ⟨mkHistBar yAcc (d3HistogramBin xAcc nd0 nd1 tz data (bisectRight tz x)), ?_, ?_, ?_⟩
    · simp only [updateHistogramChartBars, d3Histogram, List.mem_map]
      refine ⟨d3HistogramBin xAcc nd0 nd1 tz data (bisectRight tz x), ?_, rfl⟩
      rw [← htzdef]
      exact ⟨bisectRight tz x, List.mem_range.mpr (Nat.lt_succ_of_le hk), rfl⟩
    · show (d3HistogramBin xAcc nd0 nd1 tz data (bisectRight tz x)).x0 ≤ x
      simp only [d3HistogramBin]
      by_cases h0 : bisectRight tz x = 0
      · simp [h0]; exact hxn0
      · simp only [h0, if_neg h0]
        exact sorted_getD_le_of_lt_countP x tz htz _ (by
          show bisectRight tz x - 1 < tz.countP fun t => decide (t ≤ x)
          have hbs : bisectRight tz x = tz.countP fun t => decide (t ≤ x) := rfl
          omega)
    · show x ≤ (d3HistogramBin xAcc nd0 nd1 tz data (bisectRight tz x)).x1
      simp only [d3HistogramBin]
      by_cases hm : bisectRight tz x = tz.length
      · simp [hm]; exact hxn1
      · simp only [hm, if_neg hm]
        refine le_of_lt (sorted_lt_getD_of_countP_le x tz htz _ ?_ ?_)
        · exact le_refl _
        · omega

/-- C8 (witness): with data `[(1,2), (3,4)]`, window `[1, 3]`, niced domain
`[0, 4]` and the single threshold `2`, each of the two points is counted in
exactly one bucket. -/
theorem C8_bucket_partition_and_yvalue_witness :
    (updateHistogramChartBars Prod.fst Prod.snd (0, 4) [2]
        [((1 : ℚ), (2 : ℚ)), (3, 4)]).countP
      (fun b => decide (((1 : ℚ), (2 : ℚ)) ∈ b.points)) = 1 ∧
    (updateHistogramChartBars Prod.fst Prod.snd (0, 4) [2]
        [((1 : ℚ), (2 : ℚ)), (3, 4)]).countP
      (fun b => decide (((3 : ℚ), (4 : ℚ)) ∈ b.points)) = 1 :=
  ⟨(C8_bucket_partition_and_yvalue Prod.fst Prod.snd [((1 : ℚ), (2 : ℚ)), (3, 4)]
      1 3 0 4 [2] _ rfl (by norm_num) (by norm_num) (by simp)).2.1
      ((1 : ℚ), (2 : ℚ)) (by simp) (by norm_num) (by norm_num),
   (C8_bucket_partition_and_yvalue Prod.fst Prod.snd [((1 : ℚ), (2 : ℚ)), (3, 4)]
      1 3 0 4 [2] _ rfl (by norm_num) (by norm_num) (by simp)).2.1
      ((3 : ℚ), (4 : ℚ)) (by simp) (by norm_num) (by norm_num)⟩

/-- C9: for `data = []` (the component's default prop value) the
constructor's `calculateWidthsAndDomain(props, [], {max: -Infinity, min:
Infinity})` takes the data-unchanged branch and never sets the
`brushDomain` key, so the initial state has NO domain at all — and the
constructor then throws a `TypeError` when `_createScaleAndZoom` reads
`this.state.brushDomain.min` — contradicting the claim (and spec section 7,
which requires degenerate data not to raise).  For nonempty data the key is
set to the data's extent. -/
theorem C9_empty_data_initial_state_lacks_domain :
    initialBrushDomain Prod.fst Prod.snd
      (⟨[], 500, 150, 10, true, 1000⟩ : Props (ℚ × ℚ)) = none ∧
    initialBrushDomain Prod.fst Prod.snd
      (⟨[(3, 1)], 500, 150, 10, true, 1000⟩ : Props (ℚ × ℚ)) =
      some ⟨JVal.num 3, JVal.num 3⟩ := by
  decide

/-- C10: `_onDensityChartDomainChanged` computes the zoom scale factor as
`densityChartDimensions.width / (brushSelectionMax - brushSelectionMin)`
with no guard: the result is non-finite (division by zero) exactly when the
selection has zero width, and under the precondition
`pixelMin < pixelMax` it is the finite quotient. -/
theorem C10_zero_width_selection_unguarded (s : LinScale) (w : ℚ)
    (sel : ℚ × ℚ) :
    ((onDensityChartDomainChanged s w sel).zoomScale = none ↔ sel.2 = sel.1) ∧
    (sel.1 < sel.2 →
      (onDensityChartDomainChanged s w sel).zoomScale = some (w / (sel.2 - sel.1))) := by
  constructor
  · constructor
    · intro h
      by_cases hb : sel.2 - sel.1 = 0
      · exact sub_eq_zero.mp hb
      · simp [onDensityChartDomainChanged, jsDiv, hb] at h
    · intro h
      have hb : sel.2 - sel.1 = 0 := sub_eq_zero.mpr h
      simp [onDensityChartDomainChanged, jsDiv, hb]
  · intro h
    have hb : sel.2 - sel.1 ≠ 0 := sub_ne_zero.mpr (ne_of_gt h)
    simp [onDensityChartDomainChanged, jsDiv, hb]

/-- C10 (witness): with overview width 100, the zero-width selection
`(3, 3)` yields a non-finite scale and the selection `(3, 5)` the finite
scale `50`. -/
theorem C10_zero_width_selection_unguarded_witness :
    (onDensityChartDomainChanged ⟨0, 10, 0, 100⟩ 100 (3, 3)).zoomScale = none ∧
    (onDensityChartDomainChanged ⟨0, 10, 0, 100⟩ 100 (3, 5)).zoomScale = some 50 :=
  ⟨(C10_zero_width_selection_unguarded ⟨0, 10, 0, 100⟩ 100 (3, 3)).1.mpr rfl,
   by
    have h := (C10_zero_width_selection_unguarded ⟨0, 10, 0, 100⟩ 100 (3, 5)).2
      (by norm_num)
    rw [h]
    norm_num⟩
